import Mathlib

/-
Verification development for the SEMapp processing pipeline
(src/Processing/processing.py, class Process).

The Python code is shallowly embedded: a file name or a text line is a
list of characters (`Str`), a directory is a list of file names, machine
floats are modelled as rationals with Python's round-half-to-even
rounding, and Python exceptions are modelled by `Except PyError`.
-/

namespace SEM

/-- A Python string, modelled as its list of characters. -/
abbrev Str := List Char

/-- The whitespace characters recognised by Python's `str.split()` /
`str.strip()` and by the regex class `\s` (ASCII fragment). -/
def isWs (c : Char) : Bool :=
  c = ' ' ∨ c = '\t' ∨ c = '\n' ∨ c = '\r' ∨ c = '\x0b' ∨ c = '\x0c'

/-- `str.strip()`: drop whitespace from both ends. -/
def pyStrip (s : Str) : Str :=
  ((s.dropWhile isWs).reverse.dropWhile isWs).reverse

/-- `s.startswith(p)`. -/
def startsWithS : Str → Str → Bool
  | _, [] => true
  | [], _ :: _ => false
  | c :: cs, p :: ps => c = p && startsWithS cs ps

/-- `s.endswith(p)`. -/
def endsWithS (s p : Str) : Bool :=
  startsWithS s.reverse p.reverse

/-- `s.lower()` (ASCII fragment). -/
def toLowerS (s : Str) : Str := s.map Char.toLower

/-- `p in s` (substring containment). -/
def containsS : Str → Str → Bool
  | [], p => startsWithS [] p
  | c :: cs, p => startsWithS (c :: cs) p || containsS cs p

/-- Worker for `wsSplit`: `cur` is the token being accumulated, reversed. -/
def wsSplitAux : Str → Str → List Str
  | cur, [] => if cur = [] then [] else [cur.reverse]
  | cur, c :: cs =>
    if isWs c then
      if cur = [] then wsSplitAux [] cs else cur.reverse :: wsSplitAux [] cs
    else wsSplitAux (c :: cur) cs

/-- `str.split()` with no argument: split on runs of whitespace,
discarding empty tokens. -/
def wsSplit (s : Str) : List Str := wsSplitAux [] s

/-- `str.split(sep)` for a one-character separator: keeps empty fields,
like Python's `"a__b".split("_") == ["a", "", "b"]`. -/
def splitOnC (sep : Char) : Str → List Str
  | [] => [[]]
  | c :: cs =>
    if c = sep then [] :: splitOnC sep cs
    else
      match splitOnC sep cs with
      | t :: ts => (c :: t) :: ts
      | [] => [[c]]

/-- Numeric value of a list of decimal digits. -/
def digitsVal (s : Str) : ℕ :=
  s.foldl (fun a c => 10 * a + (c.toNat - 48)) 0

def allDigits (s : Str) : Bool := s.all Char.isDigit

/-- Unsigned decimal literal `digits [. digits]` as a rational; `none`
when the token is not of that form (Python `float(...)` would raise
`ValueError`, or, for a regex capture, could not have matched).  The
model covers the literal forms the recipe format uses; exponent,
`inf`/`nan` and underscore forms are outside the model. -/
def parseUnsigned (s : Str) : Option ℚ :=
  match splitOnC '.' s with
  | [intp] => if intp ≠ [] ∧ allDigits intp then some (digitsVal intp) else none
  | [intp, frac] =>
    if (intp ≠ [] ∨ frac ≠ []) ∧ allDigits intp ∧ allDigits frac then
      some ((digitsVal intp : ℚ) + (digitsVal frac : ℚ) / (10 : ℚ) ^ frac.length)
    else none
  | _ => none

/-- Python `float(tok)` on a whitespace-free token (sign + decimal). -/
def pyFloat (s : Str) : Option ℚ :=
  match s with
  | '-' :: rest => (parseUnsigned rest).map Neg.neg
  | '+' :: rest => parseUnsigned rest
  | _ => parseUnsigned s

/-- Python `int(tok)` on a whitespace-free token (sign + digits). -/
def pyInt (s : Str) : Option ℤ :=
  match s with
  | '-' :: rest =>
    if rest ≠ [] ∧ allDigits rest then some (-(digitsVal rest : ℤ)) else none
  | '+' :: rest =>
    if rest ≠ [] ∧ allDigits rest then some (digitsVal rest : ℤ) else none
  | _ => if s ≠ [] ∧ allDigits s then some (digitsVal s : ℤ) else none

/-- `re.match(r"^\d+\s", line)`: one or more leading digits followed by
a whitespace character. -/
def startsDigitThenWs (s : Str) : Bool :=
  (s.takeWhile Char.isDigit) ≠ [] &&
    (match s.dropWhile Char.isDigit with
     | c :: _ => isWs c
     | [] => false)

/-- The first character exists and is not a decimal digit (used to
separate keyword lines from defect rows). -/
def headNonDigit : Str → Bool
  | [] => false
  | c :: _ => !c.isDigit

/-! ### Python error model -/

/-- The Python exceptions the embedded code can raise. -/
inductive PyError
  | typeError
  | valueError
  | indexError
  | zeroDivisionError
  deriving DecidableEq, Repr

instance {ε α : Type _} [DecidableEq ε] [DecidableEq α] :
    DecidableEq (Except ε α) := fun x y =>
  match x, y with
  | .error a, .error b =>
    if h : a = b then .isTrue (congrArg Except.error h)
    else .isFalse (fun hh => h (Except.error.inj hh))
  | .ok a, .ok b =>
    if h : a = b then .isTrue (congrArg Except.ok h)
    else .isFalse (fun hh => h (Except.ok.inj hh))
  | .error _, .ok _ => .isFalse (fun hh => Except.noConfusion hh)
  | .ok _, .error _ => .isFalse (fun hh => Except.noConfusion hh)

/-! ### Recipe parsing (`Process.extract_positions`, lines 53-124) -/

/-- The `data` dictionary built by `extract_positions`. -/
structure RecipeData where
  sampleSize : Option ℤ
  pitchX : Option ℚ
  pitchY : Option ℚ
  originX : Option ℚ
  originY : Option ℚ
  centerX : Option ℚ
  centerY : Option ℚ
  defects : List (List ℚ)
  deriving DecidableEq, Repr

def initRecipeData : RecipeData :=
  ⟨none, none, none, none, none, none, none, []⟩

/-- A token entirely in the regex class `[0-9.]+`, converted with
`float(...)`; `none` both when the class does not cover the token and
when `float` would reject it (e.g. `5..0`). -/
def classNum (t : Str) : Option ℚ :=
  if t ≠ [] ∧ t.all (fun c => c.isDigit ∨ c = '.') then parseUnsigned t else none

/-- A token of the form `[0-9.]+;...`: the regex `([0-9.]+);` takes the
greedy class run and requires a semicolon right after it. -/
def semiNum (t : Str) : Option ℚ :=
  match t.dropWhile (fun c => c.isDigit ∨ c = '.') with
  | ';' :: _ =>
    let num := t.takeWhile (fun c => c.isDigit ∨ c = '.')
    if num ≠ [] then parseUnsigned num else none
  | _ => none

/-- `re.search(key + r"\s+([0-9.]+)\s+([0-9.]+);", line)` on a line that
starts with `key`, modelled on the whitespace tokenization: the first
token is `key` itself, followed by a full class token and a
semicolon-terminated one (trailing tokens are allowed, as with
`re.search`). -/
def parsePairLine (key : Str) (line : Str) : Option (ℚ × ℚ) :=
  match wsSplit line with
  | k :: a :: b :: _ =>
    if k = key then
      match classNum a, semiNum b with
      | some x, some y => some (x, y)
      | _, _ => none
    else none
  | _ => none

/-- `re.search(r"SampleSize\s+1\s+(\d+)", line)`: literal token `1`,
then a token starting with digits. -/
def parseSampleSizeLine (line : Str) : Option ℤ :=
  match wsSplit line with
  | k :: t1 :: t2 :: _ =>
    if k = ("SampleSize").data ∧ t1 = ['1'] ∧ (t2.takeWhile Char.isDigit) ≠ [] then
      some (digitsVal (t2.takeWhile Char.isDigit) : ℤ)
    else none
  | _ => none

/-- Defect-row construction (line 100):
`{f"val{i+1}": float(val) for i, val in enumerate(value[:18])}`.
`none` models the uncaught `ValueError` of `float` on a bad token. -/
def parseDefectRow (toks : List Str) : Option (List ℚ) :=
  let parsed := (toks.take 18).map pyFloat
  if parsed.all Option.isSome then some (parsed.map (fun o => o.getD 0)) else none

/-- One iteration of the line loop of `extract_positions` (lines 66-101):
the `if/elif` chain over the stripped line, with the boolean
`dans_defect_list` state. -/
def processLine (st : RecipeData × Bool) (rawLine : Str) :
    Except PyError (RecipeData × Bool) :=
  let data := st.1
  let inDL := st.2
  let line := pyStrip rawLine
  if startsWithS line (("SampleSize").data) then
    match parseSampleSizeLine line with
    | some n => .ok ({ data with sampleSize := some n }, inDL)
    | none => .ok (data, inDL)
  else if startsWithS line (("DiePitch").data) then
    match parsePairLine (("DiePitch").data) line with
    | some (x, y) => .ok ({ data with pitchX := some x, pitchY := some y }, inDL)
    | none => .ok (data, inDL)
  else if startsWithS line (("DieOrigin").data) then
    match parsePairLine (("DieOrigin").data) line with
    | some (x, y) => .ok ({ data with originX := some x, originY := some y }, inDL)
    | none => .ok (data, inDL)
  else if startsWithS line (("SampleCenterLocation").data) then
    match parsePairLine (("SampleCenterLocation").data) line with
    | some (x, y) => .ok ({ data with centerX := some x, centerY := some y }, inDL)
    | none => .ok (data, inDL)
  else if startsWithS line (("DefectList").data) then
    .ok (data, true)
  else if inDL then
    if startsDigitThenWs line then
      let value := wsSplit line
      if 18 ≤ value.length then
        match parseDefectRow value with
        | some d => .ok ({ data with defects := data.defects ++ [d] }, inDL)
        | none => .error .valueError
      else .ok (data, inDL)
    else .ok (data, inDL)
  else .ok (data, inDL)

/-- The full line loop. -/
def processLines : (RecipeData × Bool) → List Str → Except PyError (RecipeData × Bool)
  | st, [] => .ok st
  | st, l :: ls => do processLines (← processLine st l) ls

def parseRecipe (lines : List Str) : Except PyError (RecipeData × Bool) :=
  processLines (initRecipeData, false) lines

/-! ### Rounding and coordinate correction (lines 103-124) -/

/-- Round to the nearest integer, ties to even (Python's `round`). -/
def rne (q : ℚ) : ℤ :=
  let f := q.floor
  let r := q - (f : ℚ)
  if r < 1/2 then f
  else if 1/2 < r then f + 1
  else if f % 2 = 0 then f else f + 1

/-- Python `round(q, 1)`. -/
def round1 (q : ℚ) : ℚ := (rne (q * 10) : ℚ) / 10

/-- One row of the corrected-position table.  The code also stores
`defect_id` in each dict, but `pd.DataFrame(..., columns=["X", "Y"])`
keeps only the X and Y columns; `x` is column 0 and `y` column 1. -/
structure Coord where
  defectId : ℚ
  x : ℚ
  y : ℚ
  deriving DecidableEq, Repr

/-- The loop body of lines 110-120 for one defect `d`:
`val4_scaled = d["val4"] * pitch_x - x_center`,
`x_corr = round((val2 + val4_scaled) / 10000, 1)` and symmetrically for
`y`; a missing pitch or center makes the arithmetic raise `TypeError`
(`float * None`). -/
def correctDefect (px py cx cy : Option ℚ) (d : List ℚ) : Except PyError Coord :=
  match d.get? 0, d.get? 1, d.get? 2, d.get? 3, d.get? 4 with
  | some v1, some v2, some v3, some v4, some v5 =>
    match px, cx, py, cy with
    | some pxv, some cxv, some pyv, some cyv =>
      .ok ⟨v1, round1 ((v2 + (v4 * pxv - cxv)) / 10000),
               round1 ((v3 + (v5 * pyv - cyv)) / 10000)⟩
    | _, _, _, _ => .error .typeError
  | _, _, _, _, _ => .error .typeError

/-- `for d in data["Defects"]: ... corrected_positions.append(...)`:
order-preserving, first failure aborts. -/
def mapExcept (f : α → Except PyError β) : List α → Except PyError (List β)
  | [] => .ok []
  | a :: as => do
    let b ← f a
    let bs ← mapExcept f as
    .ok (b :: bs)

/-- `Process.extract_positions`, from the recipe file's lines to the
corrected coordinate table. -/
def extract_positions (lines : List Str) : Except PyError (List Coord) := do
  let (data, _) ← parseRecipe lines
  mapExcept (correctDefect data.pitchX data.pitchY data.centerX data.centerY)
    data.defects

/-! ### Settings (`Process.load_json`, lines 38-52) -/

/-- One row of the capture-settings table: a `{"Scale": ..., "Image Type": ...}`
JSON object. -/
structure CaptureSetting where
  scale : Str
  imageType : Str
  deriving DecidableEq, Repr

/-- Outcome of reading the settings JSON file. -/
inductive JsonRead
  | ok (settings : List CaptureSetting)
  | fileNotFound
  | decodeError
  | osError
  deriving DecidableEq, Repr

/-- `Process.load_json`: any read failure leaves `self.settings = []`. -/
def load_json : JsonRead → List CaptureSetting
  | .ok s => s
  | .fileNotFound => []
  | .decodeError => []
  | .osError => []

/-! ### File renaming (`Process.rename`, lines 125-179) -/

/-- `str(v)` for a one-decimal float value `v` (a multiple of 1/10), as
Python prints it inside the f-string: always one digit after the dot. -/
def fmt1 (q : ℚ) : Str :=
  let n := rne (q * 10)
  let m := n.natAbs
  (if n < 0 then ['-'] else []) ++ (toString (m / 10)).data ++ ['.'] ++
    (toString (m % 10)).data

/-- `int(file.split('_')[2].split('.')[0])` (line 155): `IndexError`
when the name has fewer than three `_`-separated parts, `ValueError`
when the token is not an integer literal. -/
def pageNumber (f : Str) : Except PyError ℤ :=
  match (splitOnC '_' f).get? 2 with
  | none => .error .indexError
  | some part =>
    match (splitOnC '.' part).get? 0 with
    | none => .error .indexError
    | some tok =>
      match pyInt tok with
      | some n => .ok n
      | none => .error .valueError

/-- `(file_number - 1) // len(settings)` and `(file_number - 1) % len(settings)`
(lines 160-161); Python `//` and `%` are floor division and its remainder. -/
def pageToIndices (n : ℕ) (p : ℤ) : ℤ × ℤ :=
  ((p - 1).fdiv n, (p - 1).fmod n)

/-- `coordinates.iloc[i, _]` row access: a nonnegative index must be in
range, a negative one counts from the end. -/
def ilocCoord (coords : List Coord) (i : ℤ) : Except PyError Coord :=
  if 0 ≤ i then
    match coords.get? i.toNat with
    | some c => .ok c
    | none => .error .indexError
  else
    if (-i).toNat ≤ coords.length then
      match coords.get? (coords.length - (-i).toNat) with
      | some c => .ok c
      | none => .error .indexError
    else .error .indexError

/-- `f"{scale}_{x}_{y}_{image_type}.tif"` (line 172). -/
def newNameOf (s : CaptureSetting) (c : Coord) : Str :=
  s.scale ++ ['_'] ++ fmt1 c.x ++ ['_'] ++ fmt1 c.y ++ ['_'] ++ s.imageType ++
    (".tif").data

/-- The per-file body of the rename loop (lines 153-172), up to the
target name: parse the page number, divide by `len(self.settings)`
(`ZeroDivisionError` when the table is empty — there is no explicit
emptiness check), look up the coordinates row and the settings row. -/
def renameStep (settings : List CaptureSetting) (coords : List Coord) (f : Str) :
    Except PyError Str := do
  let p ← pageNumber f
  if settings.length = 0 then .error .zeroDivisionError
  else
    let c ← ilocCoord coords (pageToIndices settings.length p).1
    match settings.get? (pageToIndices settings.length p).2.toNat with
    | some s => .ok (newNameOf s c)
    | none => .error .indexError

/-- `os.rename(old, new)` on a directory listing: `old` disappears, an
existing file named `new` is silently replaced. -/
def fsRename (files : List Str) (old new : Str) : List Str :=
  ((files.erase old).filter (fun g => !(g == new))) ++ [new]

/-- Result of a rename pass: the directory contents afterwards, the
renames performed in order, and the uncaught exception (if any) that
aborted the loop. -/
structure RenameResult where
  files : List Str
  renamed : List (Str × Str)
  error : Option PyError
  deriving DecidableEq, Repr

/-- The rename loop of lines 153-179: files are processed in order; an
exception aborts the whole loop, leaving earlier renames in place. -/
def renameLoop (settings : List CaptureSetting) (coords : List Coord) :
    List Str → List Str → List (Str × Str) → RenameResult
  | [], files, done => ⟨files, done.reverse, none⟩
  | f :: rest, files, done =>
    match renameStep settings coords f with
    | .error e => ⟨files, done.reverse, some e⟩
    | .ok t => renameLoop settings coords rest (fsRename files f t) ((f, t) :: done)

/-- Python string `<` (lexicographic on code points). -/
def lexLt : Str → Str → Bool
  | [], [] => false
  | [], _ :: _ => true
  | _ :: _, [] => false
  | a :: as, b :: bs => decide (a < b) || (a = b && lexLt as bs)

def lexLe (a b : Str) : Bool := lexLt a b || a = b

def insertLe (x : Str) : List Str → List Str
  | [] => [x]
  | y :: ys => if lexLe x y then x :: y :: ys else y :: insertLe x ys

/-- `tiff_files.sort()` (stable ascending sort by string order). -/
def sortStr : List Str → List Str
  | [] => []
  | x :: xs => insertLe x (sortStr xs)

/-- The filter of lines 149-150: `"page" in f and f.lower().endswith(('.tiff', '.tif'))`. -/
def isPageTiff (f : Str) : Bool :=
  containsS f (("page").data) &&
    (endsWithS (toLowerS f) ((".tiff").data) || endsWithS (toLowerS f) ((".tif").data))

/-- A wafer directory: its file names, and the text lines of its `.001`
recipe file when one is present. -/
structure WaferDir where
  files : List Str
  recipeLines : List Str
  deriving DecidableEq, Repr

/-- `glob.glob(os.path.join(dir, '*.001'))` is non-empty. -/
def hasRecipe (d : WaferDir) : Bool :=
  d.files.any (fun f => endsWithS f ((".001").data))

/-- `Process.rename` on an existing wafer directory.  With no `.001`
file, `recipe_path` is `None` and `extract_positions(None)` raises
`TypeError` at `open(None)`. -/
def runRename (settings : List CaptureSetting) (d : WaferDir) : RenameResult :=
  if hasRecipe d then
    match extract_positions d.recipeLines with
    | .error e => ⟨d.files, [], some e⟩
    | .ok coords =>
      renameLoop settings coords (sortStr (d.files.filter isPageTiff)) d.files []
  else ⟨d.files, [], some .typeError⟩

/-! ### Directory cleanup (`Process.clean`, lines 217-239) -/

/-- `f.lower().endswith(('.tiff', '.tif'))` (line 232). -/
def isTiffName (f : Str) : Bool :=
  endsWithS (toLowerS f) ((".tiff").data) || endsWithS (toLowerS f) ((".tif").data)

/-- The deletion condition of line 236:
`not file_name.startswith("data") or "page" in file_name.lower() or file_name.endswith("001")`. -/
def cleanTarget (f : Str) : Bool :=
  !(startsWithS f (("data").data)) || containsS (toLowerS f) (("page").data) ||
    endsWithS f (("001").data)

/-- `Process.clean`: the directory contents after the deletion pass. -/
def runClean (files : List Str) : List Str :=
  files.filter (fun f => !(isTiffName f && cleanTarget f))

/-- The files `Process.clean` deletes. -/
def cleanDeleted (files : List Str) : List Str :=
  files.filter (fun f => isTiffName f && cleanTarget f)

/-! ### Batch rename (`Process.rename_all`, lines 278-328) -/

/-- Result of `rename_all` over the walked subdirectories: the renames
of each fully processed directory in order, the uncaught exception that
aborted the walk (if any), and whether the walk ended through the silent
`return` taken when a subdirectory has no `.001` file (line 298). -/
structure BatchResult where
  perDir : List (List (Str × Str))
  error : Option PyError
  earlyReturn : Bool
  deriving DecidableEq, Repr

/-- `Process.rename_all` over the subdirectories in walk order.  Per
directory: no recipe file means `return` (silent stop of the whole
batch); a parse exception propagates; an empty coordinate table raises
`ValueError` (line 302); the per-file loop is the same as in `rename`,
and its exceptions also abort the whole batch. -/
def runRenameAll (settings : List CaptureSetting) : List WaferDir → BatchResult
  | [] => ⟨[], none, false⟩
  | d :: rest =>
    if hasRecipe d then
      match extract_positions d.recipeLines with
      | .error e => ⟨[], some e, false⟩
      | .ok coords =>
        if coords.isEmpty then ⟨[], some .valueError, false⟩
        else
          let r := renameLoop settings coords
            (sortStr (d.files.filter isPageTiff)) d.files []
          match r.error with
          | some e => ⟨[r.renamed], some e, false⟩
          | none =>
            let b := runRenameAll settings rest
            ⟨r.renamed :: b.perDir, b.error, b.earlyReturn⟩
    else ⟨[], none, true⟩

/-! ### Concrete inputs used by witnesses and counterexamples -/

/-- A minimal well-formed recipe: pitch 5000/5000, center 1000/1000, one
defect row with `val2 = 2000`, `val3 = 3000`, `val4 = 1`, `val5 = 2`. -/
def sampleRecipe : List Str :=
  [("DiePitch 5000 5000;").data,
   ("SampleCenterLocation 1000 1000;").data,
   ("DefectList").data,
   ("1 2000 3000 1 2 0 0 0 0 0 0 0 0 0 0 0 0 0").data]

/-- The parse of `sampleRecipe`. -/
def sampleRecipeData : RecipeData :=
  ⟨none, some 5000, some 5000, none, none, some 1000, some 1000,
   [[1, 2000, 3000, 1, 2, 0, 0, 0, 0, 0, 0, 0, 0, 0, 0, 0, 0, 0]]⟩

/-- A one-row capture-settings table. -/
def oneSetting : List CaptureSetting := [⟨("100").data, ("SE").data⟩]

/-- A recipe with a defect row but no `DiePitch` line. -/
def noPitchRecipe : List Str :=
  [("SampleCenterLocation 1000 1000;").data,
   ("DefectList").data,
   ("1 2000 3000 1 2 0 0 0 0 0 0 0 0 0 0 0 0 0").data]

/-- The parse of `noPitchRecipe`. -/
def noPitchData : RecipeData :=
  ⟨none, none, none, none, none, some 1000, some 1000,
   [[1, 2000, 3000, 1, 2, 0, 0, 0, 0, 0, 0, 0, 0, 0, 0, 0, 0, 0]]⟩

/-- A wafer directory whose first page file (in sorted order) has an
unparseable page-number token. -/
def malformedDir : WaferDir :=
  ⟨[("a_page_z.tiff").data, ("data_page_1.tiff").data, ("recipe.001").data],
   sampleRecipe⟩

/-- A wafer directory with a page file but no recipe file. -/
def noRecipeDir : WaferDir := ⟨[("data_page_1.tiff").data], []⟩

/-- A well-formed wafer directory: one page file and a recipe. -/
def goodDir : WaferDir :=
  ⟨[("data_page_1.tiff").data, ("recipe.001").data], sampleRecipe⟩

/-- A wafer directory holding only the recipe file. -/
def recipeOnlyDir : WaferDir := ⟨[("recipe.001").data], sampleRecipe⟩

/-- Two defect records whose corrected coordinates round to the same
one-decimal values. -/
def twoCoords : List Coord := [⟨1, 3/5, 6/5⟩, ⟨2, 3/5, 6/5⟩]

/-- The body of the correction loop as a total function, for defect rows
that have their first five values (always true for parsed rows, which
have 18).  Spec names: `val2 = row_offset`, `val3 = col_offset`,
`val4 = die_col`, `val5 = die_row`. -/
def corrFun (px py cx cy : ℚ) (d : List ℚ) : Coord :=
  ⟨(d.get? 0).getD 0,
   round1 (((d.get? 1).getD 0 + ((d.get? 3).getD 0 * px - cx)) / 10000),
   round1 (((d.get? 2).getD 0 + ((d.get? 4).getD 0 * py - cy)) / 10000)⟩

/-! ### Shared lemmas -/

theorem correctDefect_some_eq (px py cx cy : ℚ) (d : List ℚ) (h : 5 ≤ d.length) :
    correctDefect (some px) (some py) (some cx) (some cy) d =
      .ok (corrFun px py cx cy d) := by
  have h0 : ∀ i, i < 5 → ∃ v, d.get? i = some v := by
    intro i hi
    cases hv : d.get? i with
    | none => exact absurd (List.get?_eq_none.mp hv) (by omega)
    | some v => exact ⟨v, rfl⟩
  obtain ⟨v1, h1⟩ := h0 0 (by omega)
  obtain ⟨v2, h2⟩ := h0 1 (by omega)
  obtain ⟨v3, h3⟩ := h0 2 (by omega)
  obtain ⟨v4, h4⟩ := h0 3 (by omega)
  obtain ⟨v5, h5⟩ := h0 4 (by omega)
  simp only [List.get?_eq_getElem?] at h1 h2 h3 h4 h5
  simp [correctDefect, corrFun, h1, h2, h3, h4, h5]

theorem correctDefect_no_pitchX (py cx cy : Option ℚ) (d : List ℚ) :
    correctDefect none py cx cy d = .error .typeError := by
  unfold correctDefect
  cases h1 : d.get? 0 <;> cases h2 : d.get? 1 <;> cases h3 : d.get? 2 <;>
    cases h4 : d.get? 3 <;> cases h5 : d.get? 4 <;> rfl

theorem mapExcept_ok_of (f : α → Except PyError β) (g : α → β) (l : List α)
    (h : ∀ a ∈ l, f a = .ok (g a)) :
    mapExcept f l = .ok (l.map g) := by
  induction l with
  | nil => rfl
  | cons a as ih =>
    have ha : f a = .ok (g a) := h a (List.mem_cons_self a as)
    have has : mapExcept f as = .ok (as.map g) :=
      ih (fun x hx => h x (List.mem_cons_of_mem a hx))
    rw [mapExcept, ha, has]
    rfl

theorem mapExcept_cons_error (f : α → Except PyError β) (a : α) (as : List α)
    (e : PyError) (h : f a = .error e) :
    mapExcept f (a :: as) = .error e := by
  rw [mapExcept, h]
  rfl

theorem bind_ok_reduce {α β : Type _} (a : α) (k : α → Except PyError β) :
    (Except.ok a : Except PyError α) >>= k = k a := rfl

theorem startsWith_false_of_digit_start (s p : Str)
    (hs : startsDigitThenWs s = true) (hp : headNonDigit p = true) :
    startsWithS s p = false := by
  cases p with
  | nil => simp [headNonDigit] at hp
  | cons c ps =>
    cases s with
    | nil => simp [startsDigitThenWs] at hs
    | cons a as =>
      have ha : a.isDigit = true := by
        cases h : a.isDigit with
        | true => rfl
        | false =>
          rw [startsDigitThenWs] at hs
          simp [List.takeWhile_cons, h] at hs
      have hc : c.isDigit = false := by simpa [headNonDigit] using hp
      have hac : a ≠ c := by
        intro h
        rw [h] at ha
        rw [ha] at hc
        exact Bool.noConfusion hc
      simp [startsWithS, hac]

attribute [local semireducible] Rat.mul Rat.inv Rat.add Rat.sub

/-! ## Claims -/

/-- C8: `clean` is idempotent: for every directory state, a second run
of `clean` on the result of a first run deletes nothing — the set of
files matching the deletion predicate after one pass is empty. -/
theorem c8_clean_idempotent (files : List Str) :
    runClean (runClean files) = runClean files ∧
    cleanDeleted (runClean files) = [] := by
  constructor
  · simp [runClean, List.filter_filter]
  · simp only [cleanDeleted, runClean, List.filter_filter]
    have : ∀ f : Str,
        ((isTiffName f && cleanTarget f) && !(isTiffName f && cleanTarget f)) = false := by
      intro f
      cases isTiffName f && cleanTarget f <;> rfl
    simp [this]

/-- C7 counterexample: on a directory holding an intermediate page file,
a finished renamed output and the recipe file, `clean` keeps only the
recipe file: the finished output (whose name does not start with
`data`) is deleted and the `.001` recipe (not a tiff) survives — the
opposite of what the claim states. -/
theorem c7_clean_counterexample :
    runClean [("data_page_1.tiff").data, ("100_0.6_1.2_SE.tif").data,
              ("recipe.001").data] = [("recipe.001").data] ∧
    cleanDeleted [("data_page_1.tiff").data, ("100_0.6_1.2_SE.tif").data,
              ("recipe.001").data] =
      [("data_page_1.tiff").data, ("100_0.6_1.2_SE.tif").data] := by
  constructor <;> rfl

/-- C7 amended: `clean` deletes exactly the `.tif`/`.tiff`-named files
whose name does not start with `data`, or contains `page`
(case-insensitively), or ends with `001`; files without a tiff
extension — the recipe artifact included — are never deleted, so what
remains is the non-tiff files together with the tiff files named like
the original stack, not the finished renamed outputs. -/
theorem c7_clean_deletion_rule (files : List Str) (f : Str) :
    (f ∈ cleanDeleted files ↔
      f ∈ files ∧ isTiffName f = true ∧ cleanTarget f = true) ∧
    (f ∈ runClean files ↔
      f ∈ files ∧ (isTiffName f = true → cleanTarget f = false)) := by
  constructor
  · simp [cleanDeleted, List.mem_filter]
  · rw [runClean, List.mem_filter]
    cases hti : isTiffName f <;> cases hct : cleanTarget f <;> simp [hti, hct]

/-- C1: for every defect record, with pitch and center present, the
corrected coordinate is `x = round((row_offset + die_col*pitch_x - center_x)
/ 10000, 1)` and `y = round((col_offset + die_row*pitch_y - center_y)
/ 10000, 1)` (`corrFun`, with `val2/val3` the offsets and `val4/val5`
the die indices), the output table preserves the defect order (it is a
`map` over the parsed list), and the given concrete scenario yields
x = 0.6, y = 1.2. -/
theorem c1_coordinate_formula :
    (∀ (lines : List Str) (data : RecipeData) (b : Bool) (px py cx cy : ℚ),
      parseRecipe lines = .ok (data, b) →
      data.pitchX = some px → data.pitchY = some py →
      data.centerX = some cx → data.centerY = some cy →
      (∀ d ∈ data.defects, 5 ≤ d.length) →
      extract_positions lines = .ok (data.defects.map (corrFun px py cx cy))) ∧
    extract_positions sampleRecipe = .ok [⟨1, 6/10, 12/10⟩] := by
  constructor
  · intro lines data b px py cx cy hp hpx hpy hcx hcy hlen
    have hstep : extract_positions lines =
        mapExcept (correctDefect data.pitchX data.pitchY data.centerX data.centerY)
          data.defects := by
      unfold extract_positions
      rw [hp]
      rfl
    rw [hstep, hpx, hpy, hcx, hcy]
    exact mapExcept_ok_of _ _ _ (fun d hd => correctDefect_some_eq px py cx cy d (hlen d hd))
  · decide

/-- C1 witness: on the concrete recipe the hypotheses of the general
statement hold and the formula gives the coordinate table. -/
theorem c1_witness :
    extract_positions sampleRecipe =
      .ok (sampleRecipeData.defects.map (corrFun 5000 5000 1000 1000)) :=
  c1_coordinate_formula.1 sampleRecipe sampleRecipeData true 5000 5000 1000 1000
    (by decide) rfl rfl rfl rfl (by decide)

/-- C2: `rename` maps a page number `p` and a settings table of length
`N` to row `(p-1)//N` of the coordinate table and entry `(p-1)%N` of
the settings table; for `1 ≤ p ≤ N` this is `(0, p-1)`, and for
`p = N+1` it is `(1, 0)`. -/
theorem c2_page_mapping :
    (∀ (settings : List CaptureSetting) (coords : List Coord) (f : Str) (p : ℤ),
      pageNumber f = .ok p → settings.length ≠ 0 →
      renameStep settings coords f =
        (ilocCoord coords (pageToIndices settings.length p).1).bind (fun c =>
          match settings.get? (pageToIndices settings.length p).2.toNat with
          | some s => .ok (newNameOf s c)
          | none => .error .indexError)) ∧
    (∀ n : ℕ, 0 < n → ∀ p : ℤ, 1 ≤ p → p ≤ (n : ℤ) →
      pageToIndices n p = (0, p - 1)) ∧
    (∀ n : ℕ, 0 < n → pageToIndices n ((n : ℤ) + 1) = (1, 0)) := by
  refine ⟨?_, ?_, ?_⟩
  · intro settings coords f p hp hn
    unfold renameStep
    rw [hp, bind_ok_reduce, if_neg hn]
    rfl
  · intro n hn p h1 h2
    have hb : (0 : ℤ) ≤ (n : ℤ) := Int.ofNat_nonneg n
    have h0 : (0 : ℤ) ≤ p - 1 := by omega
    have hlt : p - 1 < (n : ℤ) := by omega
    unfold pageToIndices
    rw [Int.fdiv_eq_ediv _ hb, Int.fmod_eq_of_lt h0 hlt, Int.ediv_eq_zero_of_lt h0 hlt]
  · intro n hn
    have hpos : (0 : ℤ) < (n : ℤ) := by exact_mod_cast hn
    have hne : (n : ℤ) ≠ 0 := ne_of_gt hpos
    unfold pageToIndices
    have hsimp : (n : ℤ) + 1 - 1 = (n : ℤ) := by ring
    rw [hsimp, Int.fdiv_self hne, Int.fmod_eq_emod _ (le_of_lt hpos), Int.emod_self]

/-- C2 witness: concrete instances of the three parts. -/
theorem c2_witness :
    pageToIndices 3 2 = (0, 1) ∧
    pageToIndices 3 (((3 : ℕ) : ℤ) + 1) = (1, 0) ∧
    renameStep oneSetting [⟨1, 3/5, 6/5⟩] (("data_page_3.tiff").data) =
      (ilocCoord [⟨1, 3/5, 6/5⟩] (pageToIndices oneSetting.length 3).1).bind (fun c =>
        match oneSetting.get? (pageToIndices oneSetting.length 3).2.toNat with
        | some s => .ok (newNameOf s c)
        | none => .error .indexError) :=
  ⟨c2_page_mapping.2.1 3 (by decide) 2 (by decide) (by decide),
   c2_page_mapping.2.2 3 (by decide),
   c2_page_mapping.1 oneSetting [⟨1, 3/5, 6/5⟩] (("data_page_3.tiff").data) 3
     (by decide) (by decide)⟩

/-- C3 counterexample: after `DefectList`, the line `5 1.0 2.0` begins
with a decimal integer followed by whitespace but has fewer than 18
tokens, and the parser stores no defect record for it — contradicting
"this holds for every such line, regardless of how many tokens the line
contains". -/
theorem c3_short_row_counterexample :
    (parseRecipe [("DefectList").data, ("5 1.0 2.0").data]).map
      (fun st => st.1.defects) = .ok [] := by decide

/-- C3 amended: after entering the defect-list section, a line beginning
with a decimal integer followed by whitespace is treated as a defect row
only when it splits into at least 18 whitespace-delimited tokens; then
exactly the first 18 tokens are parsed as floats and stored positionally
(`parseDefectRow` takes `value[:18]`), and a line with fewer than 18
tokens is silently skipped. -/
theorem c3_defect_row_rule (data : RecipeData) (line : Str)
    (hd : startsDigitThenWs (pyStrip line) = true) :
    (18 ≤ (wsSplit (pyStrip line)).length →
      processLine (data, true) line =
        (match parseDefectRow (wsSplit (pyStrip line)) with
         | some d => .ok ({ data with defects := data.defects ++ [d] }, true)
         | none => .error .valueError)) ∧
    ((wsSplit (pyStrip line)).length < 18 →
      processLine (data, true) line = .ok (data, true)) := by
  have k1 := startsWith_false_of_digit_start (pyStrip line) (("SampleSize").data) hd (by decide)
  have k2 := startsWith_false_of_digit_start (pyStrip line) (("DiePitch").data) hd (by decide)
  have k3 := startsWith_false_of_digit_start (pyStrip line) (("DieOrigin").data) hd (by decide)
  have k4 := startsWith_false_of_digit_start (pyStrip line)
    (("SampleCenterLocation").data) hd (by decide)
  have k5 := startsWith_false_of_digit_start (pyStrip line) (("DefectList").data) hd (by decide)
  constructor
  · intro h18
    simp only [processLine, k1, k2, k3, k4, k5, Bool.false_eq_true, if_false, hd, if_true]
    rw [if_pos h18]
  · intro hlt
    simp only [processLine, k1, k2, k3, k4, k5, Bool.false_eq_true, if_false, hd, if_true]
    rw [if_neg (by omega)]

/-- C3 witness: the short row from the counterexample is skipped. -/
theorem c3_witness :
    processLine (initRecipeData, true) (("5 1.0 2.0").data) =
      .ok (initRecipeData, true) :=
  (c3_defect_row_rule initRecipeData (("5 1.0 2.0").data) (by decide)).2 (by decide)

/-- C4 counterexample: a recipe lacking a `DiePitch` line but with zero
defect rows makes coordinate correction succeed silently with an empty
table — no loud failure, no distinct error kind. -/
theorem c4_no_failure_without_defects :
    extract_positions [("SampleCenterLocation 1000 1000;").data, ("DefectList").data] =
      .ok [] := by decide

/-- C4 amended: when the recipe lacks a `DiePitch` line, the correction
loop raises a generic `TypeError` (from `float * None`) at the first
defect — so with at least one defect row it fails before producing any
coordinate and never defaults to 0.0, but with zero defect rows it
silently returns an empty table, and no distinct `PreconditionError`
kind exists. -/
theorem c4_missing_pitch_behavior (lines : List Str) (data : RecipeData) (b : Bool)
    (hp : parseRecipe lines = .ok (data, b)) (hpx : data.pitchX = none) :
    (data.defects ≠ [] → extract_positions lines = .error .typeError) ∧
    (data.defects = [] → extract_positions lines = .ok []) := by
  have hstep : extract_positions lines =
      mapExcept (correctDefect data.pitchX data.pitchY data.centerX data.centerY)
        data.defects := by
    unfold extract_positions
    rw [hp]
    rfl
  constructor
  · intro hne
    cases hdef : data.defects with
    | nil => exact absurd hdef hne
    | cons d ds =>
      rw [hstep, hdef, hpx]
      exact mapExcept_cons_error _ _ _ _ (correctDefect_no_pitchX _ _ _ d)
  · intro he
    rw [hstep, he]
    rfl

/-- C4 witness: with a defect row present and `DiePitch` missing, the
correction fails with `TypeError`. -/
theorem c4_witness : extract_positions noPitchRecipe = .error .typeError :=
  (c4_missing_pitch_behavior noPitchRecipe noPitchData true (by decide) rfl).1 (by decide)

theorem renameLoop_nil (settings : List CaptureSetting) (coords : List Coord)
    (files : List Str) (done : List (Str × Str)) :
    renameLoop settings coords [] files done = ⟨files, done.reverse, none⟩ := rfl

theorem renameLoop_cons_ok (settings : List CaptureSetting) (coords : List Coord)
    (f : Str) (rest files : List Str) (done : List (Str × Str)) (t : Str)
    (h : renameStep settings coords f = .ok t) :
    renameLoop settings coords (f :: rest) files done =
      renameLoop settings coords rest (fsRename files f t) ((f, t) :: done) := by
  simp only [renameLoop]
  rw [h]

theorem renameLoop_cons_error (settings : List CaptureSetting) (coords : List Coord)
    (f : Str) (rest files : List Str) (done : List (Str × Str)) (e : PyError)
    (h : renameStep settings coords f = .error e) :
    renameLoop settings coords (f :: rest) files done =
      ⟨files, done.reverse, some e⟩ := by
  simp only [renameLoop]
  rw [h]

theorem renameStep_empty_settings (coords : List Coord) (f : Str) :
    ∃ e, renameStep [] coords f = .error e := by
  unfold renameStep
  cases hp : pageNumber f with
  | error e => exact ⟨e, rfl⟩
  | ok p => exact ⟨.zeroDivisionError, rfl⟩

/-- C5 counterexample: a directory whose sorted page-file list starts
with `a_page_z.tiff` (unparseable page token): `rename` raises an
uncaught `ValueError`, renames nothing — in particular it does not skip
the bad file and process the well-formed `data_page_1.tiff` — and no
recoverable warning path exists. -/
theorem c5_malformed_counterexample :
    (runRename oneSetting malformedDir).error = some .valueError ∧
    (runRename oneSetting malformedDir).renamed = [] ∧
    (runRename oneSetting malformedDir).files = malformedDir.files := by
  refine ⟨?_, ?_, ?_⟩ <;> decide

/-- C5 amended: a page file whose page-number token cannot be parsed
makes the rename loop raise an uncaught exception at that file,
aborting the batch: files later in sorted order are left unprocessed,
and the renames made so far are the only mutations. -/
theorem c5_malformed_page_aborts (settings : List CaptureSetting) (coords : List Coord)
    (f : Str) (rest files : List Str) (done : List (Str × Str)) (e : PyError)
    (h : renameStep settings coords f = .error e) :
    renameLoop settings coords (f :: rest) files done =
      ⟨files, done.reverse, some e⟩ :=
  renameLoop_cons_error settings coords f rest files done e h

/-- C5 witness: the loop aborts at the malformed head file. -/
theorem c5_witness :
    renameLoop oneSetting [] [("a_page_z.tiff").data, ("data_page_1.tiff").data]
        [("a_page_z.tiff").data, ("data_page_1.tiff").data] [] =
      ⟨[("a_page_z.tiff").data, ("data_page_1.tiff").data], [], some .valueError⟩ :=
  c5_malformed_page_aborts oneSetting [] (("a_page_z.tiff").data)
    [("data_page_1.tiff").data] [("a_page_z.tiff").data, ("data_page_1.tiff").data]
    [] .valueError (by decide)

/-- C6 counterexample: three wafer subdirectories, the first lacking a
recipe file: `rename_all` returns silently — no directory is processed
and no failure is reported, instead of processing the other two and
reporting one failure. -/
theorem c6_missing_recipe_counterexample :
    runRenameAll oneSetting [noRecipeDir, goodDir, goodDir] = ⟨[], none, true⟩ := by
  decide

/-- C6 amended: `rename_all` stops silently (plain `return`, no error)
at the first subdirectory in walk order that lacks a recipe file;
subdirectories before it are processed normally, the recipe-less one
and every later one are not processed, and no failure is reported. -/
theorem c6_rename_all_silent_stop :
    (∀ (settings : List CaptureSetting) (d : WaferDir) (rest : List WaferDir),
      hasRecipe d = false →
      runRenameAll settings (d :: rest) = ⟨[], none, true⟩) ∧
    (∀ (settings : List CaptureSetting) (g : WaferDir) (ds : List WaferDir),
      (runRenameAll settings [g]).error = none →
      (runRenameAll settings [g]).earlyReturn = false →
      runRenameAll settings (g :: ds) =
        ⟨(runRenameAll settings [g]).perDir ++ (runRenameAll settings ds).perDir,
         (runRenameAll settings ds).error,
         (runRenameAll settings ds).earlyReturn⟩) := by
  constructor
  · intro settings d rest h
    simp [runRenameAll, h]
  · intro settings g ds h1 h2
    by_cases hr : hasRecipe g
    · cases hex : extract_positions g.recipeLines with
      | error e => simp [runRenameAll, hr, hex] at h1
      | ok coords =>
        by_cases hemp : coords.isEmpty
        · simp [runRenameAll, hr, hex, hemp] at h1
        · cases herr : (renameLoop settings coords
              (sortStr (g.files.filter isPageTiff)) g.files []).error with
          | some e => simp [runRenameAll, hr, hex, hemp, herr] at h1
          | none => simp [runRenameAll, hr, hex, hemp, herr]
    · simp [runRenameAll, hr] at h2

/-- C6 witness: the silent stop at a recipe-less head directory. -/
theorem c6_witness :
    runRenameAll oneSetting [noRecipeDir] = ⟨[], none, true⟩ :=
  c6_rename_all_silent_stop.1 oneSetting noRecipeDir [] (by decide)

/-- C9 counterexample: with an empty settings table, a recipe present
and no page files, `rename` completes without any error — it does not
fail, contradicting "with an empty table it fails". -/
theorem c9_no_failure_without_pages :
    (runRename [] recipeOnlyDir).error = none := by decide

/-- C9 amended: `rename` performs no explicit precondition check; with
an empty settings table it never renames or deletes anything (the
directory contents are unchanged), and if at least one page file is
present it fails with an uncaught exception (`ZeroDivisionError` at the
first file whose page number parses), but with no page files it
completes silently. -/
theorem c9_empty_settings_no_mutation (d : WaferDir) :
    (runRename [] d).files = d.files ∧
    (runRename [] d).renamed = [] ∧
    (∀ f fs, sortStr (d.files.filter isPageTiff) = f :: fs →
      (runRename [] d).error.isSome = true) := by
  by_cases hr : hasRecipe d
  · cases hex : extract_positions d.recipeLines with
    | error e => refine ⟨?_, ?_, ?_⟩ <;> simp [runRename, hr, hex]
    | ok coords =>
      cases hs : sortStr (d.files.filter isPageTiff) with
      | nil =>
        refine ⟨?_, ?_, ?_⟩
        · simp [runRename, hr, hex, hs, renameLoop_nil]
        · simp [runRename, hr, hex, hs, renameLoop_nil]
        · intro f fs hffs
          simp at hffs
      | cons f fs =>
        obtain ⟨e, he⟩ := renameStep_empty_settings coords f
        refine ⟨?_, ?_, ?_⟩ <;>
          simp [runRename, hr, hex, hs, renameLoop_cons_error _ _ _ _ _ _ _ he]
  · refine ⟨?_, ?_, ?_⟩ <;> simp [runRename, hr]

/-- C9 witness: empty settings with one page file — no mutation, and an
error is raised. -/
theorem c9_witness :
    (runRename [] goodDir).files = goodDir.files ∧
    (runRename [] goodDir).error.isSome = true :=
  ⟨(c9_empty_settings_no_mutation goodDir).1,
   (c9_empty_settings_no_mutation goodDir).2.2 (("data_page_1.tiff").data) []
     (by decide)⟩

/-- C10: `rename` never detects target-name collisions: two distinct
page files that map to the same setting entry and to coordinate rows
with equal one-decimal (X, Y) get the identical target name; both
renames succeed, the later one silently replaces the earlier output
(`fsRename` drops the existing target), the directory ends with one
output file for two input pages, and no error is raised. -/
theorem c10_collision_silent_overwrite
    (settings : List CaptureSetting) (coords : List Coord) (f1 f2 : Str)
    (p1 p2 : ℤ) (c1 c2 : Coord) (s : CaptureSetting)
    (hn : settings.length ≠ 0)
    (h1 : pageNumber f1 = .ok p1) (h2 : pageNumber f2 = .ok p2)
    (hrem : (pageToIndices settings.length p1).2 = (pageToIndices settings.length p2).2)
    (hc1 : ilocCoord coords (pageToIndices settings.length p1).1 = .ok c1)
    (hc2 : ilocCoord coords (pageToIndices settings.length p2).1 = .ok c2)
    (hx : c1.x = c2.x) (hy : c1.y = c2.y)
    (hs : settings.get? (pageToIndices settings.length p1).2.toNat = some s)
    (h2t : f2 ≠ newNameOf s c1) :
    renameStep settings coords f1 = .ok (newNameOf s c1) ∧
    renameStep settings coords f2 = .ok (newNameOf s c1) ∧
    renameLoop settings coords [f1, f2] [f1, f2] [] =
      ⟨[newNameOf s c1], [(f1, newNameOf s c1), (f2, newNameOf s c1)], none⟩ := by
  have e1 : renameStep settings coords f1 = .ok (newNameOf s c1) := by
    unfold renameStep
    rw [h1, bind_ok_reduce, if_neg hn, hc1, bind_ok_reduce, hs]
  have hname : newNameOf s c2 = newNameOf s c1 := by
    unfold newNameOf
    rw [hx, hy]
  have e2 : renameStep settings coords f2 = .ok (newNameOf s c1) := by
    unfold renameStep
    rw [h2, bind_ok_reduce, if_neg hn, hc2, bind_ok_reduce, ← hrem, hs]
    exact congrArg Except.ok hname
  have hf1 : fsRename [f1, f2] f1 (newNameOf s c1) = [f2, newNameOf s c1] := by
    unfold fsRename
    rw [List.erase_cons_head]
    simp [h2t]
  have hf2 : fsRename [f2, newNameOf s c1] f2 (newNameOf s c1) = [newNameOf s c1] := by
    unfold fsRename
    rw [List.erase_cons_head]
    simp
  refine ⟨e1, e2, ?_⟩
  rw [renameLoop_cons_ok _ _ _ _ _ _ _ e1, hf1,
      renameLoop_cons_ok _ _ _ _ _ _ _ e2, hf2, renameLoop_nil]
  rfl

/-- C10 witness: pages 1 and 2 with a one-entry settings table and two
defect rows with equal rounded coordinates collapse to one output. -/
theorem c10_witness :
    renameStep oneSetting twoCoords (("data_page_1.tiff").data) =
      .ok (newNameOf ⟨("100").data, ("SE").data⟩ ⟨1, 3/5, 6/5⟩) ∧
    renameStep oneSetting twoCoords (("data_page_2.tiff").data) =
      .ok (newNameOf ⟨("100").data, ("SE").data⟩ ⟨1, 3/5, 6/5⟩) ∧
    renameLoop oneSetting twoCoords
        [("data_page_1.tiff").data, ("data_page_2.tiff").data]
        [("data_page_1.tiff").data, ("data_page_2.tiff").data] [] =
      ⟨[newNameOf ⟨("100").data, ("SE").data⟩ ⟨1, 3/5, 6/5⟩],
       [(("data_page_1.tiff").data, newNameOf ⟨("100").data, ("SE").data⟩ ⟨1, 3/5, 6/5⟩),
        (("data_page_2.tiff").data, newNameOf ⟨("100").data, ("SE").data⟩ ⟨1, 3/5, 6/5⟩)],
       none⟩ :=
  c10_collision_silent_overwrite oneSetting twoCoords
    (("data_page_1.tiff").data) (("data_page_2.tiff").data) 1 2
    ⟨1, 3/5, 6/5⟩ ⟨2, 3/5, 6/5⟩ ⟨("100").data, ("SE").data⟩
    (by decide) (by decide) (by decide) (by decide) (by decide) (by decide)
    rfl rfl (by decide) (by decide)

end SEM
